import Mathlib

/-!
Shallow embedding of the connection pool from `pool.go`.

Connections are modelled as natural-number identifiers (the pool never
inspects a connection's payload, only moves it around and closes it).
The Go channel `conns chan net.Conn` becomes an optional bounded FIFO
buffer: `none` models the nil channel that `closePool` installs, and is
the code's sentinel for a closed pool.  The factory is modelled as an
indexed stream of results `Nat → Except String Nat` (call number `i`
yields the `i`-th factory outcome); a `calls` counter in the pool state
records how many factory invocations have happened, which makes the
"does not touch the Factory" properties observable.  Errors are the Go
error strings produced by `errors.New` / `fmt.Errorf`.  Operations that
close connections additionally return the list of connections they
closed, in the order the Go code closes them.
-/

/-- Bounded buffer modelling the Go channel `conns chan net.Conn`:
`buf` holds the queued connections in FIFO order, `cap` is the channel
capacity fixed by `make(chan net.Conn, maxCap)`.  A non-blocking send
(`select` with `default`) succeeds exactly when `buf.length < cap`. -/
structure Chan where
  buf : List Nat
  cap : Nat
deriving DecidableEq, Repr

/-- Pool state from `pool.go`.  `conns` is `none` when the Go field holds
the nil channel (after `closePool`); `factoryAlive` mirrors whether the
Go `factory` field is still non-nil; `calls` counts how many times the
factory has been invoked so far (instrumentation, not a Go field). -/
structure Pool where
  conns : Option Chan
  factoryAlive : Bool
  calls : Nat
deriving DecidableEq, Repr

/-- Error string of `errors.New("pool is closed")`. -/
def errPoolClosed : String := "pool is closed"

/-- Error string of `errors.New("invalid capacity settings")`. -/
def errInvalidCap : String := "invalid capacity settings"

/-- Wrapping performed by `fmt.Errorf("factory is not able to fill the pool: %s", err)`
in `New`: the only place the code adds pool-level context to a factory error. -/
def wrapFactoryErr (e : String) : String :=
  "factory is not able to fill the pool: " ++ e

/-- Loop body of `New`: invoke the factory `remaining` more times starting
at call number `i`, sending each fresh connection into the buffer `acc`.
On a factory error the Go code calls `p.Close()` — which drains and closes
every connection created so far — and returns the wrapped error; we return
the wrapped message together with the list of connections closed. -/
def fillAux (f : Nat → Except String Nat) :
    Nat → Nat → List Nat → Except (String × List Nat) (List Nat)
  | 0, _, acc => Except.ok acc
  | remaining + 1, i, acc =>
    match f i with
    | Except.ok c => fillAux f remaining (i + 1) (acc ++ [c])
    | Except.error e => Except.error (wrapFactoryErr e, acc)

/-- Embedding of `New(initalCap, maxCap int, factory Factory)`.  Returns the
constructed pool or the error, together with the list of connections closed
during a failed construction (empty on success and on invalid settings). -/
def New (initalCap maxCap : Int) (f : Nat → Except String Nat) :
    Except String Pool × List Nat :=
  if initalCap ≤ 0 ∨ maxCap ≤ 0 ∨ initalCap > maxCap then
    (Except.error errInvalidCap, [])
  else
    match fillAux f initalCap.toNat 0 [] with
    | Except.ok buf =>
      (Except.ok { conns := some { buf := buf, cap := maxCap.toNat },
                   factoryAlive := true, calls := initalCap.toNat }, [])
    | Except.error (msg, closed) => (Except.error msg, closed)

/-- Embedding of `getConns`: read the channel reference under the mutex. -/
def getConns (p : Pool) : Option Chan := p.conns

/-- Embedding of `Get`.  If the channel reference is nil the pool is closed.
Otherwise a non-blocking receive: a buffered connection is taken from the
front, and if the buffer is empty the factory is invoked and its result —
connection or error — returned to the caller verbatim.  (The Go code also
rejects a nil connection received from the channel; that branch only fires
when a closed channel hands out its zero value, which cannot happen in the
sequential model because `Close` swaps the reference to nil first.) -/
def Get (f : Nat → Except String Nat) (p : Pool) : Except String Nat × Pool :=
  match getConns p with
  | none => (Except.error errPoolClosed, p)
  | some ch =>
    match ch.buf with
    | c :: rest =>
      (Except.ok c, { p with conns := some { buf := rest, cap := ch.cap } })
    | [] =>
      match f p.calls with
      | Except.ok c => (Except.ok c, { p with calls := p.calls + 1 })
      | Except.error e => (Except.error e, { p with calls := p.calls + 1 })

/-- Embedding of the lowercase `put`: under the mutex, fail if the pool is
closed, otherwise attempt a non-blocking send.  Returns whether the
connection was stored, together with the updated pool. -/
def put (p : Pool) (c : Nat) : Bool × Pool :=
  match p.conns with
  | none => (false, p)
  | some ch =>
    if ch.buf.length < ch.cap then
      (true, { p with conns := some { buf := ch.buf ++ [c], cap := ch.cap } })
    else
      (false, p)

/-- Embedding of `Put`: a nil connection returns immediately; otherwise the
connection is stored via `put`, and closed when `put` reports failure
(pool closed or buffer full).  Mirroring the Go signature
`func (p *Pool) Put(conn net.Conn)`, there is no error result: the second
component is the list of connections closed by the call. -/
def Put (p : Pool) (c : Option Nat) : Pool × List Nat :=
  match c with
  | none => (p, [])
  | some c =>
    match put p c with
    | (true, q) => (q, [])
    | (false, q) => (q, [c])

/-- Embedding of `closePool`: under the mutex, capture the channel
reference and set both `conns` and `factory` to nil. -/
def closePool (p : Pool) : Option Chan × Pool :=
  (p.conns, { p with conns := none, factoryAlive := false })

/-- Embedding of `Close`: swap out the channel via `closePool`; if it was
already nil, return; otherwise drain it and close every buffered
connection.  The second component lists the connections closed. -/
def Close (p : Pool) : Pool × List Nat :=
  match closePool p with
  | (none, q) => (q, [])
  | (some ch, q) => (q, ch.buf)

/-- Embedding of `MaximumCapacity` (the interface's `Cap`): `cap(p.conns)`,
which is `0` for the nil channel. -/
def MaximumCapacity (p : Pool) : Nat :=
  match p.conns with
  | none => 0
  | some ch => ch.cap

/-- Embedding of `UsedCapacity` (the interface's `Len`): `len(p.conns)`,
which is `0` for the nil channel. -/
def UsedCapacity (p : Pool) : Nat :=
  match p.conns with
  | none => 0
  | some ch => ch.buf.length

/-- List of the connections the factory stream `g` produces over the calls
`i, i + 1, ..., i + r - 1`, in creation order. -/
def mintList (g : Nat → Nat) : Nat → Nat → List Nat
  | _, 0 => []
  | i, r + 1 => g i :: mintList g (i + 1) r

theorem mintList_length (g : Nat → Nat) : ∀ r i, (mintList g i r).length = r := by
  intro r
  induction r with
  | zero => intro i; rfl
  | succ r ih => intro i; simp [mintList, ih (i + 1)]

theorem fillAux_ok_of_forall (f : Nat → Except String Nat) (g : Nat → Nat)
    (hg : ∀ i, f i = Except.ok (g i)) :
    ∀ (r i : Nat) (acc : List Nat),
      fillAux f r i acc = Except.ok (acc ++ mintList g i r) := by
  intro r
  induction r with
  | zero => intro i acc; simp [fillAux, mintList]
  | succ r ih =>
    intro i acc
    simp [fillAux, hg i, ih (i + 1) (acc ++ [g i]), mintList]

theorem fillAux_ok_length (f : Nat → Except String Nat) :
    ∀ (r i : Nat) (acc out : List Nat),
      fillAux f r i acc = Except.ok out → out.length = acc.length + r := by
  intro r
  induction r with
  | zero =>
    intro i acc out h
    simp [fillAux] at h
    simp [h.symm]
  | succ r ih =>
    intro i acc out h
    rw [fillAux] at h
    cases hfi : f i with
    | ok c =>
      rw [hfi] at h
      have := ih (i + 1) (acc ++ [c]) out h
      simp at this
      omega
    | error e => rw [hfi] at h; exact absurd h (by simp)

theorem fillAux_error_wrap (f : Nat → Except String Nat) :
    ∀ (r i : Nat) (acc : List Nat) (msg : String) (cl : List Nat),
      fillAux f r i acc = Except.error (msg, cl) → ∃ e, msg = wrapFactoryErr e := by
  intro r
  induction r with
  | zero => intro i acc msg cl h; exact absurd h (by simp [fillAux])
  | succ r ih =>
    intro i acc msg cl h
    rw [fillAux] at h
    cases hfi : f i with
    | ok c => rw [hfi] at h; exact ih (i + 1) (acc ++ [c]) msg cl h
    | error e =>
      rw [hfi] at h
      refine ⟨e, ?_⟩
      have := Except.error.inj h
      exact (Prod.mk.injEq _ _ _ _ ▸ this).1.symm

theorem fillAux_err_at (f : Nat → Except String Nat) (g : Nat → Nat)
    (k : Nat) (e : String) (herr : f k = Except.error e) :
    ∀ (r i : Nat) (acc : List Nat),
      (∀ j, i ≤ j → j < k → f j = Except.ok (g j)) → i ≤ k → k < i + r →
      fillAux f r i acc =
        Except.error (wrapFactoryErr e, acc ++ mintList g i (k - i)) := by
  intro r
  induction r with
  | zero => intro i acc _ h1 h2; omega
  | succ r ih =>
    intro i acc hok h1 h2
    by_cases hik : i = k
    · subst hik
      simp [fillAux, herr, mintList]
    · have hlt : i < k := lt_of_le_of_ne h1 hik
      have hstep : f i = Except.ok (g i) := hok i le_rfl hlt
      rw [fillAux, hstep]
      have := ih (i + 1) (acc ++ [g i])
        (fun j hj hjk => hok j (by omega) hjk) (by omega) (by omega)
      show fillAux f r (i + 1) (acc ++ [g i]) = _
      rw [this]
      have hki : k - i = (k - (i + 1)) + 1 := by omega
      rw [hki, mintList]
      simp

theorem wrapFactoryErr_ne_invalid (e : String) : wrapFactoryErr e ≠ errInvalidCap := by
  intro h
  have hl := congrArg String.length h
  rw [wrapFactoryErr, errInvalidCap, String.length_append] at hl
  have h38 : ("factory is not able to fill the pool: " : String).length = 38 := rfl
  have h25 : ("invalid capacity settings" : String).length = 25 := rfl
  rw [h38, h25] at hl
  omega

/-- C2: Shutdown is idempotent.  For every pool, running `Close` a second
time after it has completed drains nothing, closes no connection again,
and returns the pool state unchanged. -/
theorem close_idempotent (p : Pool) :
    Close (Close p).1 = ((Close p).1, []) := by
  cases p with
  | mk conns fa calls => cases conns <;> simp [Close, closePool]

/-- C3: after Shutdown has completed, every Acquire fails with the
PoolClosed error, leaves the pool untouched, and does not invoke the
factory (the invocation counter is unchanged). -/
theorem get_after_close (p : Pool) (f : Nat → Except String Nat) :
    Get f (Close p).1 = (Except.error errPoolClosed, (Close p).1) ∧
      (Get f (Close p).1).2.calls = (Close p).1.calls := by
  cases p with
  | mk conns fa calls => cases conns <;> simp [Close, closePool, Get, getConns]

/-- C10: Release with a nil connection is a no-op in every pool state:
the pool is returned unchanged and no connection is closed. -/
theorem put_nil_noop (p : Pool) : Put p none = (p, []) := rfl

/-- C8: after Shutdown completes, `MaximumCapacity` and `UsedCapacity`
both return `0`, and they keep returning `0` because a closed pool stays
closed: Get, Put and Close all leave the nil channel in place. -/
theorem cap_len_zero_after_close (p : Pool) :
    MaximumCapacity (Close p).1 = 0 ∧ UsedCapacity (Close p).1 = 0 ∧
      (∀ f, ((Get f (Close p).1).2).conns = none) ∧
      (∀ c, ((Put (Close p).1 c).1).conns = none) ∧
      ((Close (Close p).1).1).conns = none := by
  cases p with
  | mk conns fa calls =>
    cases conns <;>
      refine ⟨rfl, rfl, fun f => ?_, fun c => ?_, rfl⟩ <;>
      first
        | rfl
        | (cases c <;> rfl)

/-- C1: the idle-queue size never exceeds the capacity.  Construction,
Acquire, Release and Shutdown all preserve `UsedCapacity ≤ MaximumCapacity`
(the Go `len(p.conns) ≤ cap(p.conns)`), and a Release into a pool whose
idle queue already holds `capacity` connections closes the released
connection and leaves the reported size at `capacity`. -/
theorem pool_len_le_cap :
    (∀ (ic mc : Int) (f : Nat → Except String Nat) (p : Pool) (cl : List Nat),
        New ic mc f = (Except.ok p, cl) → UsedCapacity p ≤ MaximumCapacity p) ∧
    (∀ (f : Nat → Except String Nat) (p : Pool),
        UsedCapacity p ≤ MaximumCapacity p →
        UsedCapacity (Get f p).2 ≤ MaximumCapacity (Get f p).2) ∧
    (∀ (p : Pool) (c : Option Nat),
        UsedCapacity p ≤ MaximumCapacity p →
        UsedCapacity (Put p c).1 ≤ MaximumCapacity (Put p c).1) ∧
    (∀ p : Pool, UsedCapacity (Close p).1 ≤ MaximumCapacity (Close p).1) ∧
    (∀ (p : Pool) (ch : Chan) (c : Nat),
        p.conns = some ch → ch.buf.length = ch.cap →
        Put p (some c) = (p, [c]) ∧ UsedCapacity (Put p (some c)).1 = ch.cap) := by
  refine ⟨?_, ?_, ?_, ?_, ?_⟩
  · intro ic mc f p cl h
    by_cases hv : ic ≤ 0 ∨ mc ≤ 0 ∨ ic > mc
    · rw [New, if_pos hv] at h
      exact absurd h (by simp)
    · rw [New, if_neg hv] at h
      cases hfill : fillAux f ic.toNat 0 [] with
      | ok buf =>
        rw [hfill] at h
        simp only [Prod.mk.injEq] at h
        obtain ⟨hp, -⟩ := h
        have hp2 := Except.ok.inj hp
        have hlen := fillAux_ok_length f ic.toNat 0 [] buf hfill
        simp only [List.length_nil] at hlen
        subst hp2
        simp only [UsedCapacity, MaximumCapacity]
        omega
      | error pr =>
        obtain ⟨msg, closed⟩ := pr
        rw [hfill] at h
        exact absurd h (by simp)
  · intro f p hp
    cases p with
    | mk conns fa cal =>
      cases conns with
      | none => simpa [Get, getConns] using hp
      | some ch =>
        cases ch with
        | mk buf cp =>
          cases buf with
          | nil =>
            cases hf : f cal with
            | ok c => simp [Get, getConns, hf, UsedCapacity, MaximumCapacity]
            | error e => simp [Get, getConns, hf, UsedCapacity, MaximumCapacity]
          | cons c rest =>
            simp [Get, getConns, UsedCapacity, MaximumCapacity] at hp ⊢
            omega
  · intro p c hp
    cases c with
    | none => simpa [Put] using hp
    | some c =>
      cases p with
      | mk conns fa cal =>
        cases conns with
        | none => simpa [Put, put] using hp
        | some ch =>
          cases ch with
          | mk buf cp =>
            by_cases hlen : buf.length < cp
            · simp [Put, put, hlen, UsedCapacity, MaximumCapacity]
              omega
            · simpa [Put, put, hlen, UsedCapacity, MaximumCapacity] using hp
  · intro p
    cases p with
    | mk conns fa cal => cases conns <;> simp [Close, closePool, UsedCapacity, MaximumCapacity]
  · intro p ch c hconns hfull
    have hnot : ¬ ch.buf.length < ch.cap := by omega
    cases p with
    | mk conns fa cal =>
      simp only [Pool.conns] at hconns
      subst hconns
      constructor
      · simp [Put, put, hnot]
      · simp [Put, put, hnot, UsedCapacity, hfull]

/-- C4: `New` fails with the invalid-capacity error exactly when
`initalCap ≤ 0`, `maxCap ≤ 0` or `initalCap > maxCap`; for every valid
pair and a factory that always succeeds it returns a pool with
`UsedCapacity` equal to the initial count and `MaximumCapacity` equal to
the capacity. -/
theorem new_validation :
    (∀ (ic mc : Int) (f : Nat → Except String Nat),
        (New ic mc f).1 = Except.error errInvalidCap ↔ (ic ≤ 0 ∨ mc ≤ 0 ∨ ic > mc)) ∧
    (∀ (ic mc : Int) (f : Nat → Except String Nat) (g : Nat → Nat),
        0 < ic → ic ≤ mc → (∀ i, f i = Except.ok (g i)) →
        ∃ p, New ic mc f = (Except.ok p, []) ∧
          UsedCapacity p = ic.toNat ∧ MaximumCapacity p = mc.toNat) := by
  constructor
  · intro ic mc f
    constructor
    · intro h
      by_contra hv
      rw [New, if_neg hv] at h
      cases hfill : fillAux f ic.toNat 0 [] with
      | ok buf =>
        rw [hfill] at h
        exact absurd h (by simp)
      | error pr =>
        obtain ⟨msg, closed⟩ := pr
        rw [hfill] at h
        simp only at h
        obtain ⟨e, he⟩ := fillAux_error_wrap f ic.toNat 0 [] msg closed hfill
        exact wrapFactoryErr_ne_invalid e (he ▸ Except.error.inj h)
    · intro hv
      rw [New, if_pos hv]
  · intro ic mc f g h1 h2 hg
    have hv : ¬(ic ≤ 0 ∨ mc ≤ 0 ∨ ic > mc) := by omega
    refine ⟨{ conns := some { buf := mintList g 0 ic.toNat, cap := mc.toNat },
              factoryAlive := true, calls := ic.toNat }, ?_, ?_, ?_⟩
    · rw [New, if_neg hv, fillAux_ok_of_forall f g hg ic.toNat 0 []]
      simp
    · simp [UsedCapacity, mintList_length]
    · simp [MaximumCapacity]

/-- C5: if the factory fails on the `k`-th of the initial fill calls, every
connection created so far (`g 0, ..., g (k-1)`) is closed, no pool is
returned, and `New` fails with the error that wraps the factory's own. -/
theorem new_factory_failure_teardown (ic mc : Int) (f : Nat → Except String Nat)
    (g : Nat → Nat) (k : Nat) (e : String)
    (h1 : 0 < ic) (h2 : ic ≤ mc) (hk : k < ic.toNat)
    (hok : ∀ i, i < k → f i = Except.ok (g i)) (herr : f k = Except.error e) :
    New ic mc f = (Except.error (wrapFactoryErr e), mintList g 0 k) := by
  have hv : ¬(ic ≤ 0 ∨ mc ≤ 0 ∨ ic > mc) := by omega
  have hfill := fillAux_err_at f g k e herr ic.toNat 0 []
    (fun j _ hjk => hok j hjk) (Nat.zero_le k) (by omega)
  rw [New, if_neg hv, hfill]
  simp

/-- C6: an Acquire on an open pool whose idle queue is empty invokes the
factory synchronously (the call counter advances by one) and hands the
minted connection straight to the caller; the idle queue stays empty, so
`UsedCapacity` is unchanged and the minted connection never enters it. -/
theorem get_empty_pool_mints (co : Nat) (fa : Bool) (cal : Nat)
    (f : Nat → Except String Nat) (c : Nat) (h : f cal = Except.ok c) :
    Get f { conns := some { buf := [], cap := co }, factoryAlive := fa, calls := cal } =
      (Except.ok c,
        { conns := some { buf := [], cap := co }, factoryAlive := fa, calls := cal + 1 }) ∧
    UsedCapacity
        (Get f { conns := some { buf := [], cap := co }, factoryAlive := fa, calls := cal }).2 =
      UsedCapacity { conns := some { buf := [], cap := co }, factoryAlive := fa, calls := cal } := by
  constructor
  · simp [Get, getConns, h]
  · simp [Get, getConns, h, UsedCapacity]

/-- Witness for C6 at a concrete empty pool and an always-succeeding factory. -/
theorem get_empty_pool_mints_witness :
    Get (fun i => Except.ok (50 + i))
        { conns := some { buf := [], cap := 3 }, factoryAlive := true, calls := 0 } =
      (Except.ok 50,
        { conns := some { buf := [], cap := 3 }, factoryAlive := true, calls := 0 + 1 }) ∧
    UsedCapacity
        (Get (fun i => Except.ok (50 + i))
          { conns := some { buf := [], cap := 3 }, factoryAlive := true, calls := 0 }).2 =
      UsedCapacity { conns := some { buf := [], cap := 3 }, factoryAlive := true, calls := 0 } :=
  get_empty_pool_mints 3 true 0 (fun i => Except.ok (50 + i)) 50 rfl

/-- Counterexample for C7: on an open empty pool whose factory fails with
"boom", `Get` returns the string "boom" itself — not the pool-level
wrapped form the claim describes (the wrapping `New` would apply). -/
theorem get_factory_error_not_wrapped_cex :
    (Get (fun _ => Except.error "boom")
        { conns := some { buf := [], cap := 5 }, factoryAlive := true, calls := 0 }).1 =
      Except.error "boom" ∧
    ¬ (Get (fun _ => Except.error "boom")
        { conns := some { buf := [], cap := 5 }, factoryAlive := true, calls := 0 }).1 =
      Except.error (wrapFactoryErr "boom") := by
  constructor
  · rfl
  · intro h
    simp only [Get, getConns] at h
    exact absurd (Except.error.inj h) (by decide)

/-- C7 (amended): when the factory invoked by an Acquire on an open empty
pool fails, `Get` surfaces the factory's error to the caller verbatim —
with no pool-level wrapping — and the idle queue is left unchanged (only
the invocation counter advances). -/
theorem get_factory_error_verbatim (co : Nat) (fa : Bool) (cal : Nat)
    (f : Nat → Except String Nat) (e : String) (h : f cal = Except.error e) :
    Get f { conns := some { buf := [], cap := co }, factoryAlive := fa, calls := cal } =
      (Except.error e,
        { conns := some { buf := [], cap := co }, factoryAlive := fa, calls := cal + 1 }) ∧
    UsedCapacity
        (Get f { conns := some { buf := [], cap := co }, factoryAlive := fa, calls := cal }).2 =
      UsedCapacity { conns := some { buf := [], cap := co }, factoryAlive := fa, calls := cal } := by
  constructor
  · simp [Get, getConns, h]
  · simp [Get, getConns, h, UsedCapacity]

/-- Witness for the amended C7 at a concrete pool and failing factory. -/
theorem get_factory_error_verbatim_witness :
    Get (fun _ => Except.error "refused")
        { conns := some { buf := [], cap := 4 }, factoryAlive := true, calls := 0 } =
      (Except.error "refused",
        { conns := some { buf := [], cap := 4 }, factoryAlive := true, calls := 0 + 1 }) ∧
    UsedCapacity
        (Get (fun _ => Except.error "refused")
          { conns := some { buf := [], cap := 4 }, factoryAlive := true, calls := 0 }).2 =
      UsedCapacity { conns := some { buf := [], cap := 4 }, factoryAlive := true, calls := 0 } :=
  get_factory_error_verbatim 4 true 0 (fun _ => Except.error "refused") "refused" rfl

/-- C9: `Put` never surfaces an error — its result type, like the Go
signature `func (p *Pool) Put(conn net.Conn)`, has no error component —
and it uniformly applies the silent policy: into a closed pool or a full
queue the connection is closed and the pool is unchanged; otherwise the
connection is enqueued and nothing is closed. -/
theorem put_silent_policy (p : Pool) (c : Nat) :
    (p.conns = none → Put p (some c) = (p, [c])) ∧
    (∀ ch, p.conns = some ch → ch.cap ≤ ch.buf.length → Put p (some c) = (p, [c])) ∧
    (∀ ch, p.conns = some ch → ch.buf.length < ch.cap →
        Put p (some c) =
          ({ p with conns := some { buf := ch.buf ++ [c], cap := ch.cap } }, [])) := by
  refine ⟨?_, ?_, ?_⟩
  · intro h
    simp [Put, put, h]
  · intro ch h hfull
    have hnot : ¬ ch.buf.length < ch.cap := by omega
    simp [Put, put, h, hnot]
  · intro ch h hlt
    simp [Put, put, h, hlt]

/-- Witness for C9 at a closed pool, a full pool and an open non-full pool. -/
theorem put_silent_policy_witness :
    Put { conns := none, factoryAlive := false, calls := 0 } (some 7) =
      ({ conns := none, factoryAlive := false, calls := 0 }, [7]) ∧
    Put { conns := some { buf := [1, 2], cap := 2 }, factoryAlive := true, calls := 0 } (some 7) =
      ({ conns := some { buf := [1, 2], cap := 2 }, factoryAlive := true, calls := 0 }, [7]) ∧
    Put { conns := some { buf := [1], cap := 3 }, factoryAlive := true, calls := 0 } (some 7) =
      ({ conns := some { buf := [1] ++ [7], cap := 3 }, factoryAlive := true, calls := 0 }, []) :=
  ⟨(put_silent_policy { conns := none, factoryAlive := false, calls := 0 } 7).1 rfl,
   (put_silent_policy { conns := some { buf := [1, 2], cap := 2 }, factoryAlive := true, calls := 0 } 7).2.1 { buf := [1, 2], cap := 2 } rfl (by decide),
   (put_silent_policy { conns := some { buf := [1], cap := 3 }, factoryAlive := true, calls := 0 } 7).2.2 { buf := [1], cap := 3 } rfl (by decide)⟩

/-- Witness for C1: each preservation conjunct applied at a concrete pool,
and the full-queue Release clause at a pool holding two of two slots. -/
theorem pool_len_le_cap_witness :
    UsedCapacity { conns := some { buf := [0], cap := 2 }, factoryAlive := true, calls := 1 } ≤
      MaximumCapacity { conns := some { buf := [0], cap := 2 }, factoryAlive := true, calls := 1 } ∧
    UsedCapacity
        (Get (fun i => Except.ok i)
          { conns := some { buf := [3], cap := 2 }, factoryAlive := true, calls := 0 }).2 ≤
      MaximumCapacity
        (Get (fun i => Except.ok i)
          { conns := some { buf := [3], cap := 2 }, factoryAlive := true, calls := 0 }).2 ∧
    UsedCapacity
        (Put { conns := some { buf := [3], cap := 2 }, factoryAlive := true, calls := 0 }
          (some 7)).1 ≤
      MaximumCapacity
        (Put { conns := some { buf := [3], cap := 2 }, factoryAlive := true, calls := 0 }
          (some 7)).1 ∧
    UsedCapacity
        (Close { conns := some { buf := [3], cap := 2 }, factoryAlive := true, calls := 0 }).1 ≤
      MaximumCapacity
        (Close { conns := some { buf := [3], cap := 2 }, factoryAlive := true, calls := 0 }).1 ∧
    (Put { conns := some { buf := [1, 2], cap := 2 }, factoryAlive := true, calls := 0 }
        (some 9) =
      ({ conns := some { buf := [1, 2], cap := 2 }, factoryAlive := true, calls := 0 }, [9]) ∧
    UsedCapacity
        (Put { conns := some { buf := [1, 2], cap := 2 }, factoryAlive := true, calls := 0 }
          (some 9)).1 = ({ buf := [1, 2], cap := 2 } : Chan).cap) :=
  ⟨pool_len_le_cap.1 1 2 (fun i => Except.ok i)
      { conns := some { buf := [0], cap := 2 }, factoryAlive := true, calls := 1 } [] rfl,
   pool_len_le_cap.2.1 (fun i => Except.ok i)
      { conns := some { buf := [3], cap := 2 }, factoryAlive := true, calls := 0 } (by decide),
   pool_len_le_cap.2.2.1
      { conns := some { buf := [3], cap := 2 }, factoryAlive := true, calls := 0 }
      (some 7) (by decide),
   pool_len_le_cap.2.2.2.1
      { conns := some { buf := [3], cap := 2 }, factoryAlive := true, calls := 0 },
   pool_len_le_cap.2.2.2.2
      { conns := some { buf := [1, 2], cap := 2 }, factoryAlive := true, calls := 0 }
      { buf := [1, 2], cap := 2 } 9 rfl rfl⟩

/-- Witness for C4: an invalid configuration rejected, and a valid one
accepted with the promised size and capacity. -/
theorem new_validation_witness :
    (New 0 5 (fun i => Except.ok i)).1 = Except.error errInvalidCap ∧
    (∃ p, New 2 3 (fun i => Except.ok (i + 10)) = (Except.ok p, []) ∧
        UsedCapacity p = (2 : Int).toNat ∧ MaximumCapacity p = (3 : Int).toNat) :=
  ⟨(new_validation.1 0 5 (fun i => Except.ok i)).mpr (Or.inl (by decide)),
   new_validation.2 2 3 (fun i => Except.ok (i + 10)) (fun i => i + 10)
     (by decide) (by decide) (fun i => rfl)⟩

/-- Witness for C5: a factory that succeeds twice and then refuses causes
`New 3 5` to close the two minted connections and fail with the wrap. -/
theorem new_factory_failure_teardown_witness :
    New 3 5 (fun i => if i < 2 then Except.ok (20 + i) else Except.error "dial failed") =
      (Except.error (wrapFactoryErr "dial failed"), mintList (fun i => 20 + i) 0 2) :=
  new_factory_failure_teardown 3 5
    (fun i => if i < 2 then Except.ok (20 + i) else Except.error "dial failed")
    (fun i => 20 + i) 2 "dial failed"
    (by decide) (by decide) (by decide)
    (fun i hi => by simp [hi]) rfl
